import Mathlib

/-!
Verification of the SLAM post-processing pipeline
(`main.py`, `src/post_proc_slam.py`, `src/utils.py`).

Pixel intensities are modelled as natural numbers (the source rasters are
8-bit, values 0–255); calibration thresholds are modelled as rationals
(the source compares `uint8` pixels against Python floats such as
`occupied_thresh * 255`, an exact numeric comparison).
-/

namespace PostProcSlam


/-- A grayscale raster: dimensions plus a pixel-intensity map. -/
structure Raster where
  width : ℕ
  height : ℕ
  pixel : ℕ → ℕ → ℕ

/-- `np.zeros_like(image)`: fresh raster of the same dimensions, all zeros. -/
def zerosLike (r : Raster) : Raster :=
  { width := r.width, height := r.height, pixel := fun _ _ => 0 }

/-- Per-pixel core of `preprocess_image` (utils.py lines 93–97): the three
sequential masked assignments into the zero-initialised output, in source
order.  Last write wins, exactly as with NumPy boolean-mask assignment. -/
def classifyPixel (occupied_thresh free_thresh : ℚ) (v : ℕ) : ℕ :=
  let b0 : ℕ := 0
  let b1 : ℕ := if occupied_thresh * 255 < (v : ℚ) then 255 else b0
  let b2 : ℕ := if (v : ℚ) < free_thresh * 255 then 0 else b1
  let b3 : ℕ :=
    if free_thresh * 255 ≤ (v : ℚ) ∧ (v : ℚ) ≤ occupied_thresh * 255 then 127 else b2
  b3

/-- `preprocess_image(image, occupied_thresh, free_thresh, negate)`
(utils.py): classify every pixel, then, when `negate` is set, replace each
output value `b` by `255 - b` (all classified values lie in {0,127,255},
so the `uint8` subtraction never wraps). -/
def preprocess_image (image : Raster) (occupied_thresh free_thresh : ℚ)
    (negate : Bool) : Raster :=
  let binary_image : Raster :=
    { width := image.width, height := image.height,
      pixel := fun i j => classifyPixel occupied_thresh free_thresh (image.pixel i j) }
  if negate then
    { width := binary_image.width, height := binary_image.height,
      pixel := fun i j => 255 - binary_image.pixel i j }
  else binary_image

/-- A raster used to instantiate theorems at concrete inputs. -/
def testRaster : Raster :=
  { width := 4, height := 4, pixel := fun i j => 60 * i + 15 * j }

/-- The parameter tuple handed to the probabilistic Hough transform
(`cv2.HoughLinesP`, an external library call — the repository only fixes
the parameters).  `thetaPi` records the angle resolution as a rational
multiple of π: the source passes `np.pi/900`, i.e. `thetaPi = 1/900`. -/
structure HoughParams where
  rho : ℚ
  thetaPi : ℚ
  threshold : ℤ
  min_line_length : ℤ
  max_line_gap : ℤ
deriving DecidableEq

/-- `FloorPlanProcessor.detect_lines` (post_proc_slam.py lines 25–39):
signature defaults `rho=1.7`, `theta=np.pi/900`, `threshold=40`,
`min_line_length=40`, `max_line_gap=35`; the call just forwards them to
`cv2.HoughLinesP`. -/
def detect_lines (rho : ℚ := 17/10) (thetaPi : ℚ := 1/900)
    (threshold : ℤ := 40) (min_line_length : ℤ := 40)
    (max_line_gap : ℤ := 35) : HoughParams :=
  { rho := rho, thetaPi := thetaPi, threshold := threshold,
    min_line_length := min_line_length, max_line_gap := max_line_gap }

/-- The Line-Extractor invocation in `main` (main.py line 39):
`slam.detect_lines(edges, metadata['resolution'])`.  The calibration
resolution is passed positionally as the second argument, i.e. it becomes
`rho`; the remaining parameters stay at their defaults. -/
def main_detect_lines_call (resolution : ℚ) : HoughParams :=
  detect_lines resolution

/-- A detected line segment: integer pixel endpoints `(x1,y1)`–`(x2,y2)`,
the source's `[[x1, y1, x2, y2]]` rows. -/
structure Segment where
  x1 : ℤ
  y1 : ℤ
  x2 : ℤ
  y2 : ℤ
deriving DecidableEq

/-- JSON values, as produced by `json.dump` on the exporter's data
(integers, strings, arrays, objects suffice). -/
inductive Json where
  | num : ℤ → Json
  | str : String → Json
  | arr : List Json → Json
  | obj : List (String × Json) → Json

/-- One JSON object per segment (post_proc_slam.py lines 92–96):
`{"start": [x1, y1], "end": [x2, y2]}`. -/
def segToJson (s : Segment) : Json :=
  Json.obj [("start", Json.arr [Json.num s.x1, Json.num s.y1]),
            ("end", Json.arr [Json.num s.x2, Json.num s.y2])]

/-- `FloorPlanProcessor.export_as_json`: the document is the array of the
per-segment objects, in extraction order (serialized by `json.dump` with
4-space indentation; the text layer is the external `json` library). -/
def export_as_json (lines : List Segment) : Json :=
  Json.arr (lines.map segToJson)

/-- Decoder for one exported segment object (the inverse reading a parser
of the document would perform). -/
def jsonToSeg : Json → Option Segment
  | Json.obj [("start", Json.arr [Json.num x1, Json.num y1]),
              ("end", Json.arr [Json.num x2, Json.num y2])] =>
      some { x1 := x1, y1 := y1, x2 := x2, y2 := y2 }
  | _ => none

/-- Decoder for a list of exported segment objects. -/
def jsonToSegList : List Json → Option (List Segment)
  | [] => some []
  | j :: rest => do
      let s ← jsonToSeg j
      let ss ← jsonToSegList rest
      pure (s :: ss)

/-- Parsing an exported document back into segments: the document must be
an array of segment objects. -/
def parseSegments : Json → Option (List Segment)
  | Json.arr js => jsonToSegList js
  | _ => none

/-- `x`-coordinates of all endpoints, in the order the source's
`lines_[:, [0, 2]]` slice enumerates them. -/
def xsOf : List Segment → List ℤ
  | [] => []
  | l :: rest => l.x1 :: l.x2 :: xsOf rest

/-- `y`-coordinates of all endpoints (`lines_[:, [1, 3]]`). -/
def ysOf : List Segment → List ℤ
  | [] => []
  | l :: rest => l.y1 :: l.y2 :: ysOf rest

/-- `np.min` over a list of values: `none` on an empty list (where NumPy
raises `ValueError: zero-size array to reduction operation`). -/
def listMin : List ℤ → Option ℤ
  | [] => none
  | a :: rest =>
      match listMin rest with
      | none => some a
      | some b => some (min a b)

/-- `np.max` over a list of values: `none` on an empty list. -/
def listMax : List ℤ → Option ℤ
  | [] => none
  | a :: rest =>
      match listMax rest with
      | none => some a
      | some b => some (max a b)

/-- The SVG document the exporter builds: canvas size, viewBox, and one
black stroke element per segment with the coordinates as given. -/
structure SvgDoc where
  sizeW : ℚ
  sizeH : ℚ
  minx : ℤ
  miny : ℤ
  viewW : ℤ
  viewH : ℤ
  elements : List ((ℚ × ℚ) × (ℚ × ℚ))

/-- `FloorPlanProcessor.export_as_svg` (post_proc_slam.py lines 58–81):
bounding box over all endpoint coordinates, drawing sized to
`(x_max - x_min, y_max - y_min)` with viewBox
`(x_min, y_min, x_max - x_min, y_max - y_min)`, one line element per
segment.  On zero segments the source's `np.min`/`np.max` reductions
raise (`ValueError`), modelled as `Except.error`. -/
def export_as_svg (lines : List Segment) : Except String SvgDoc :=
  match listMin (xsOf lines), listMax (xsOf lines),
        listMin (ysOf lines), listMax (ysOf lines) with
  | some x_min, some x_max, some y_min, some y_max =>
      Except.ok
        { sizeW := ((x_max - x_min : ℤ) : ℚ), sizeH := ((y_max - y_min : ℤ) : ℚ),
          minx := x_min, miny := y_min,
          viewW := x_max - x_min, viewH := y_max - y_min,
          elements := lines.map (fun l =>
            (((l.x1 : ℚ), (l.y1 : ℚ)), ((l.x2 : ℚ), (l.y2 : ℚ)))) }
  | _, _, _, _ =>
      Except.error "zero-size array to reduction operation minimum which has no identity"

/-- The DXF document the exporter builds (`ezdxf.new(dxfversion='R2010')`
plus one model-space LINE entity per segment). -/
structure DxfDoc where
  dxfversion : String
  entities : List ((ℤ × ℤ) × (ℤ × ℤ))
deriving DecidableEq

/-- `FloorPlanProcessor.export_as_dxf` (post_proc_slam.py lines 101–113). -/
def export_as_dxf (lines : List Segment) : DxfDoc :=
  { dxfversion := "R2010",
    entities := lines.map (fun l => ((l.x1, l.y1), (l.x2, l.y2))) }

/-- Squared distance (in pixels) from the point `(px, py)` to the segment
`s`, used to model the external `cv2.line` call's width-2 stroke: the
stroke covers the pixels within distance 1 of the segment. -/
def distSqToSeg (s : Segment) (px py : ℤ) : ℚ :=
  let ax : ℚ := (s.x1 : ℚ)
  let ay : ℚ := (s.y1 : ℚ)
  let dx : ℚ := ((s.x2 : ℚ) - ax)
  let dy : ℚ := ((s.y2 : ℚ) - ay)
  let len2 : ℚ := dx * dx + dy * dy
  if len2 = 0 then ((px : ℚ) - ax) ^ 2 + ((py : ℚ) - ay) ^ 2
  else
    let t : ℚ := max 0 (min 1 ((((px : ℚ) - ax) * dx + ((py : ℚ) - ay) * dy) / len2))
    ((px : ℚ) - (ax + t * dx)) ^ 2 + ((py : ℚ) - (ay + t * dy)) ^ 2

/-- Model of the external `cv2.line(floor_plan, (x1,y1), (x2,y2), 255, 2)`
call: set every pixel on the width-2 stroke of the segment to 255, leave
all other pixels of the canvas unchanged. -/
def cvLine (img : Raster) (s : Segment) : Raster :=
  { width := img.width, height := img.height,
    pixel := fun i j =>
      if distSqToSeg s (i : ℤ) (j : ℤ) ≤ 1 then 255 else img.pixel i j }

/-- `FloorPlanProcessor.draw_floor_plan` (post_proc_slam.py lines 41–56):
allocate `np.zeros_like(image)`, then, unless `lines is None`, draw each
segment with `cv2.line(..., 255, 2)` in order.  `none` models the `None`
that `cv2.HoughLinesP` returns when no line qualifies. -/
def draw_floor_plan (lines : Option (List Segment)) (image : Raster) : Raster :=
  let floor_plan := zerosLike image
  match lines with
  | none => floor_plan
  | some ls => ls.foldl cvLine floor_plan

/-- Default raster returned when reading an unallocated heap address. -/
def emptyRaster : Raster := { width := 0, height := 0, pixel := fun _ _ => 0 }

/-- A heap of NumPy arrays; an address is an index into the allocation
list.  Used to state which arrays the pipeline stages mutate. -/
abbrev Heap := List Raster

/-- Dereference an array address. -/
def heapRead (h : Heap) (a : ℕ) : Raster := (h[a]?).getD emptyRaster

/-- Overwrite the array at an address (an in-place NumPy assignment). -/
def heapWrite (h : Heap) (a : ℕ) (r : Raster) : Heap := h.set a r

/-- Allocate a fresh array (`np.zeros_like` and friends): the new address
is distinct from every address already allocated. -/
def heapAlloc (h : Heap) (r : Raster) : Heap × ℕ := (h ++ [r], h.length)

/-- One NumPy boolean-mask assignment `out[p(image)] = val`, reading the
mask from `img` and writing into `out`. -/
def maskAssign (img : Raster) (p : ℕ → Bool) (val : ℕ) (out : Raster) : Raster :=
  { width := out.width, height := out.height,
    pixel := fun i j => if p (img.pixel i j) then val else out.pixel i j }

/-- `255 - binary_image` (utils.py line 100). -/
def invertRaster (r : Raster) : Raster :=
  { width := r.width, height := r.height, pixel := fun i j => 255 - r.pixel i j }

/-- `preprocess_image` as a heap program, statement by statement
(utils.py lines 93–101): allocate `binary_image = np.zeros_like(image)`,
apply the three masked assignments into it (each mask reads `image`), and
finally, when `negate` is set, overwrite it with its inversion.  Returns
the final heap and the address of `binary_image`. -/
def preprocessProg (h : Heap) (imgA : ℕ) (ot ft : ℚ) (negate : Bool) :
    Heap × ℕ :=
  let alloc1 := heapAlloc h (zerosLike (heapRead h imgA))
  let h1 := alloc1.1
  let outA := alloc1.2
  let h2 := heapWrite h1 outA
    (maskAssign (heapRead h1 imgA) (fun v => decide (ot * 255 < (v : ℚ))) 255
      (heapRead h1 outA))
  let h3 := heapWrite h2 outA
    (maskAssign (heapRead h2 imgA) (fun v => decide ((v : ℚ) < ft * 255)) 0
      (heapRead h2 outA))
  let h4 := heapWrite h3 outA
    (maskAssign (heapRead h3 imgA)
      (fun v => decide (ft * 255 ≤ (v : ℚ) ∧ (v : ℚ) ≤ ot * 255)) 127
      (heapRead h3 outA))
  let h5 := if negate then heapWrite h4 outA (invertRaster (heapRead h4 outA)) else h4
  (h5, outA)

/-- The `for line in lines: cv2.line(floor_plan, ...)` loop as a heap
program: each iteration overwrites the array at `outA`. -/
def drawLoop (ls : List Segment) (h : Heap) (outA : ℕ) : Heap :=
  match ls with
  | [] => h
  | s :: rest => drawLoop rest (heapWrite h outA (cvLine (heapRead h outA) s)) outA

/-- `draw_floor_plan` as a heap program (post_proc_slam.py lines 41–56):
allocate `floor_plan = np.zeros_like(image)`, then draw each segment into
it unless `lines is None`.  Returns the final heap and the address of
`floor_plan`. -/
def drawProg (h : Heap) (lines : Option (List Segment)) (imgA : ℕ) :
    Heap × ℕ :=
  let alloc1 := heapAlloc h (zerosLike (heapRead h imgA))
  let h1 := alloc1.1
  let outA := alloc1.2
  match lines with
  | none => (h1, outA)
  | some ls => (drawLoop ls h1 outA, outA)

/-- The classified value always lies in {0, 127, 255}. -/
lemma classifyPixel_mem (ot ft : ℚ) (v : ℕ) :
    classifyPixel ot ft v = 0 ∨ classifyPixel ot ft v = 127 ∨
      classifyPixel ot ft v = 255 := by
  unfold classifyPixel
  split_ifs <;> simp

/-- When `v > occupied_thresh * 255` and `free_thresh ≤ occupied_thresh`,
the pixel is classified OCCUPIED (255). -/
lemma classifyPixel_of_gt (ot ft : ℚ) (v : ℕ) (hft : ft ≤ ot)
    (h : ot * 255 < (v : ℚ)) : classifyPixel ot ft v = 255 := by
  unfold classifyPixel
  have h2 : ¬ (v : ℚ) < ft * 255 := by nlinarith
  have h3 : ¬ ((v : ℚ) ≤ ot * 255) := not_le.mpr h
  simp [h2, h3, h]

/-- When `v < free_thresh * 255`, the pixel is classified FREE (0),
for any threshold pair. -/
lemma classifyPixel_of_lt (ot ft : ℚ) (v : ℕ)
    (h : (v : ℚ) < ft * 255) : classifyPixel ot ft v = 0 := by
  unfold classifyPixel
  have h3 : ¬ (ft * 255 ≤ (v : ℚ)) := not_le.mpr h
  simp [h3, h]

/-- When `free_thresh * 255 ≤ v ≤ occupied_thresh * 255`, the pixel is
classified UNKNOWN (127). -/
lemma classifyPixel_of_mid (ot ft : ℚ) (v : ℕ)
    (h1 : ft * 255 ≤ (v : ℚ)) (h2 : (v : ℚ) ≤ ot * 255) :
    classifyPixel ot ft v = 127 := by
  unfold classifyPixel
  simp [h1, h2]

/-- With `negate = false`, `preprocess_image` is `classifyPixel` applied
pointwise. -/
lemma preprocess_image_false_pixel (image : Raster) (ot ft : ℚ) (i j : ℕ) :
    (preprocess_image image ot ft false).pixel i j
      = classifyPixel ot ft (image.pixel i j) := rfl

/-- Claim C1: with `free_thresh ≤ occupied_thresh`, the classifier maps an
intensity `v` to OCCUPIED (255) when `v > occupied_thresh * 255`, to
FREE (0) when `v < free_thresh * 255`, and to UNKNOWN (127) otherwise, and
every pixel receives exactly one of these three values (before negation). -/
theorem claim_C1 (image : Raster) (ot ft : ℚ) (i j : ℕ) (hft : ft ≤ ot) :
    (preprocess_image image ot ft false).pixel i j
        = classifyPixel ot ft (image.pixel i j)
    ∧ (∀ v : ℕ,
        (ot * 255 < (v : ℚ) → classifyPixel ot ft v = 255)
        ∧ ((v : ℚ) < ft * 255 → classifyPixel ot ft v = 0)
        ∧ (¬ ot * 255 < (v : ℚ) → ¬ (v : ℚ) < ft * 255 →
            classifyPixel ot ft v = 127)
        ∧ (classifyPixel ot ft v = 255 ∨ classifyPixel ot ft v = 0 ∨
            classifyPixel ot ft v = 127)) := by
  refine ⟨preprocess_image_false_pixel image ot ft i j, fun v => ⟨?_, ?_, ?_, ?_⟩⟩
  · exact classifyPixel_of_gt ot ft v hft
  · exact classifyPixel_of_lt ot ft v
  · intro h1 h2
    exact classifyPixel_of_mid ot ft v (not_lt.mp h2) (not_lt.mp h1)
  · rcases classifyPixel_mem ot ft v with h | h | h
    · exact Or.inr (Or.inl h)
    · exact Or.inr (Or.inr h)
    · exact Or.inl h

/-- Witness for C1 at `occupied_thresh = 0.65`, `free_thresh = 0.25`,
pixel (3,2) of `testRaster` (intensity 210 > 165.75, hence OCCUPIED). -/
theorem claim_C1_witness :
    ((1 : ℚ)/4 ≤ 13/20)
    ∧ (preprocess_image testRaster (13/20) (1/4) false).pixel 3 2
        = classifyPixel (13/20) (1/4) (testRaster.pixel 3 2)
    ∧ classifyPixel (13/20) (1/4) 210 = 255 := by
  have h := claim_C1 testRaster (13/20) (1/4) 3 2 (by norm_num)
  exact ⟨by norm_num, h.1, (h.2 210).1 (by norm_num)⟩

/-- Claim C3: with `negate = true` the output at each pixel is 255 minus
the non-negated classification; OCCUPIED pixels become 0, FREE pixels
become 255, and UNKNOWN pixels become 128 (not 127). -/
theorem claim_C3 (image : Raster) (ot ft : ℚ) (i j : ℕ) :
    (preprocess_image image ot ft true).pixel i j
        = 255 - (preprocess_image image ot ft false).pixel i j
    ∧ (∀ v : ℕ, classifyPixel ot ft v = 255 → 255 - classifyPixel ot ft v = 0)
    ∧ (∀ v : ℕ, classifyPixel ot ft v = 0 → 255 - classifyPixel ot ft v = 255)
    ∧ (∀ v : ℕ, classifyPixel ot ft v = 127 → 255 - classifyPixel ot ft v = 128) := by
  refine ⟨rfl, fun v h => by rw [h], fun v h => by rw [h], fun v h => by rw [h]⟩

/-- Witness for C3 at `occupied_thresh = 0.65`, `free_thresh = 0.25`:
the UNKNOWN intensity 100 negates to 128. -/
theorem claim_C3_witness :
    (preprocess_image testRaster (13/20) (1/4) true).pixel 1 0
        = 255 - (preprocess_image testRaster (13/20) (1/4) false).pixel 1 0
    ∧ 255 - classifyPixel (13/20) (1/4) 100 = 128 := by
  have h := claim_C3 testRaster (13/20) (1/4) 1 0
  refine ⟨h.1, h.2.2.2 100 ?_⟩
  exact classifyPixel_of_mid (13/20) (1/4) 100 (by norm_num) (by norm_num)

/-- Claim C8: for a valid threshold pair the classification is monotone in
the intensity under the numeric ordering FREE (0) < UNKNOWN (127) <
OCCUPIED (255), before negation. -/
theorem claim_C8 (ot ft : ℚ) (v1 v2 : ℕ)
    (hf0 : 0 ≤ ft) (hf1 : ft ≤ 1) (ho0 : 0 ≤ ot) (ho1 : ot ≤ 1)
    (hft : ft ≤ ot) (hv : v1 ≤ v2) :
    classifyPixel ot ft v1 ≤ classifyPixel ot ft v2 := by
  have hvq : (v1 : ℚ) ≤ (v2 : ℚ) := by exact_mod_cast hv
  rcases lt_or_le (v1 : ℚ) (ft * 255) with h1 | h1
  · rw [classifyPixel_of_lt ot ft v1 h1]
    exact Nat.zero_le _
  · rcases le_or_lt (v1 : ℚ) (ot * 255) with h2 | h2
    · rw [classifyPixel_of_mid ot ft v1 h1 h2]
      rcases le_or_lt (v2 : ℚ) (ot * 255) with h3 | h3
      · rw [classifyPixel_of_mid ot ft v2 (le_trans h1 hvq) h3]
      · rw [classifyPixel_of_gt ot ft v2 hft h3]
        norm_num
    · rw [classifyPixel_of_gt ot ft v1 hft h2,
        classifyPixel_of_gt ot ft v2 hft (lt_of_lt_of_le h2 hvq)]

/-- Witness for C8 at `occupied_thresh = 0.65`, `free_thresh = 0.25`,
intensities 60 ≤ 100 (FREE ≤ UNKNOWN). -/
theorem claim_C8_witness :
    classifyPixel (13/20) (1/4) 60 ≤ classifyPixel (13/20) (1/4) 100 :=
  claim_C8 (13/20) (1/4) 60 100 (by norm_num) (by norm_num) (by norm_num)
    (by norm_num) (by norm_num) (by norm_num)

/-- Claim C10: when `free_thresh > occupied_thresh`, an intensity above
`occupied_thresh * 255` and below `free_thresh * 255` is classified
FREE (0) — the free mask, applied second, overwrites the occupied mask —
and the UNKNOWN mask is empty. -/
theorem claim_C10 (ot ft : ℚ) (hft : ot < ft) :
    (∀ v : ℕ, ot * 255 < (v : ℚ) → (v : ℚ) < ft * 255 →
        classifyPixel ot ft v = 0)
    ∧ (∀ v : ℕ, ¬ (ft * 255 ≤ (v : ℚ) ∧ (v : ℚ) ≤ ot * 255)) := by
  constructor
  · intro v _ h2
    exact classifyPixel_of_lt ot ft v h2
  · rintro v ⟨h1, h2⟩
    have : ft * 255 ≤ ot * 255 := le_trans h1 h2
    nlinarith

/-- Witness for C10 at `occupied_thresh = 0.2`, `free_thresh = 0.8`,
intensity 128 (above 51, below 204). -/
theorem claim_C10_witness :
    ((1 : ℚ)/5 < 4/5) ∧ classifyPixel (1/5) (4/5) 128 = 0 :=
  ⟨by norm_num,
    (claim_C10 (1/5) (4/5) (by norm_num)).1 128 (by norm_num) (by norm_num)⟩

/-- Counterexample to claim C2: with calibration resolution 0.05 (a
typical SLAM map YAML value), `main` invokes the Line Extractor with
`rho = 0.05`, not the fixed `rho = 1.7`, so the Hough parameters do vary
with the calibration metadata. -/
theorem claim_C2_counterexample :
    (main_detect_lines_call (1/20)).rho ≠ 17/10
    ∧ main_detect_lines_call (1/20) ≠ main_detect_lines_call (17/10) := by
  refine ⟨?_, ?_⟩ <;> · intro hEq; simp [main_detect_lines_call, detect_lines] at hEq; norm_num at hEq

/-- Claim C2 (amended): the Line Extractor is invoked with `rho` equal to
the calibration metadata's `resolution` (passed positionally), while
`theta = π/900`, `threshold = 40`, `min_line_length = 40` and
`max_line_gap = 35` remain at their fixed defaults. -/
theorem claim_C2 (resolution : ℚ) :
    main_detect_lines_call resolution
      = { rho := resolution, thetaPi := 1/900, threshold := 40,
          min_line_length := 40, max_line_gap := 35 } := rfl

lemma jsonToSeg_segToJson (s : Segment) : jsonToSeg (segToJson s) = some s := by
  cases s; rfl

/-- Claim C5: JSON export followed by parsing is the identity — the
document is an array of exactly `N` `{start, end}` objects whose integer
coordinates equal the input endpoints, in the original order. -/
theorem claim_C5 (lines : List Segment) :
    export_as_json lines = Json.arr (lines.map segToJson)
    ∧ (lines.map segToJson).length = lines.length
    ∧ parseSegments (export_as_json lines) = some lines := by
  refine ⟨rfl, List.length_map _ _, ?_⟩
  show jsonToSegList (lines.map segToJson) = some lines
  induction lines with
  | nil => rfl
  | cons s rest ih =>
      simp [List.map_cons, jsonToSegList, jsonToSeg_segToJson s, ih]

/-- Claim C4: exporting zero segments as JSON yields the valid empty array
(which parses back to zero segments), as DXF a valid document with zero
LINE entities, while the SVG exporter fails with an error instead of
producing a document. -/
theorem claim_C4 :
    export_as_json [] = Json.arr []
    ∧ parseSegments (export_as_json []) = some []
    ∧ export_as_dxf [] = { dxfversion := "R2010", entities := [] }
    ∧ (∃ msg, export_as_svg [] = Except.error msg) :=
  ⟨rfl, rfl, rfl,
    ⟨"zero-size array to reduction operation minimum which has no identity", rfl⟩⟩

lemma listMin_eq_none_iff (l : List ℤ) : listMin l = none ↔ l = [] := by
  cases l with
  | nil => simp [listMin]
  | cons a rest =>
      simp only [listMin]
      cases listMin rest <;> simp

lemma listMax_eq_none_iff (l : List ℤ) : listMax l = none ↔ l = [] := by
  cases l with
  | nil => simp [listMax]
  | cons a rest =>
      simp only [listMax]
      cases listMax rest <;> simp

/-- `listMin` returns an element of the list that bounds it below. -/
lemma listMin_spec (l : List ℤ) (m : ℤ) (h : listMin l = some m) :
    m ∈ l ∧ ∀ a ∈ l, m ≤ a := by
  induction l generalizing m with
  | nil => simp [listMin] at h
  | cons a rest ih =>
      simp only [listMin] at h
      cases hr : listMin rest with
      | none =>
          rw [hr] at h
          have hrest : rest = [] := (listMin_eq_none_iff rest).mp hr
          simp only [Option.some.injEq] at h
          subst h
          subst hrest
          simp
      | some b =>
          rw [hr] at h
          simp only [Option.some.injEq] at h
          obtain ⟨hb, hble⟩ := ih b hr
          subst h
          constructor
          · rcases min_choice a b with hc | hc
            · rw [hc]; exact List.mem_cons_self a rest
            · rw [hc]; exact List.mem_cons_of_mem a hb
          · intro x hx
            rcases List.mem_cons.mp hx with hx | hx
            · rw [hx]; exact min_le_left a b
            · exact le_trans (min_le_right a b) (hble x hx)

/-- `listMax` returns an element of the list that bounds it above. -/
lemma listMax_spec (l : List ℤ) (m : ℤ) (h : listMax l = some m) :
    m ∈ l ∧ ∀ a ∈ l, a ≤ m := by
  induction l generalizing m with
  | nil => simp [listMax] at h
  | cons a rest ih =>
      simp only [listMax] at h
      cases hr : listMax rest with
      | none =>
          rw [hr] at h
          have hrest : rest = [] := (listMax_eq_none_iff rest).mp hr
          simp only [Option.some.injEq] at h
          subst h
          subst hrest
          simp
      | some b =>
          rw [hr] at h
          simp only [Option.some.injEq] at h
          obtain ⟨hb, hble⟩ := ih b hr
          subst h
          constructor
          · rcases max_choice a b with hc | hc
            · rw [hc]; exact List.mem_cons_self a rest
            · rw [hc]; exact List.mem_cons_of_mem a hb
          · intro x hx
            rcases List.mem_cons.mp hx with hx | hx
            · rw [hx]; exact le_max_left a b
            · exact le_trans (hble x hx) (le_max_right a b)

lemma xsOf_ne_nil {lines : List Segment} (h : lines ≠ []) : xsOf lines ≠ [] := by
  cases lines with
  | nil => exact absurd rfl h
  | cons l rest => simp [xsOf]

lemma ysOf_ne_nil {lines : List Segment} (h : lines ≠ []) : ysOf lines ≠ [] := by
  cases lines with
  | nil => exact absurd rfl h
  | cons l rest => simp [ysOf]

/-- Claim C6: for a non-empty segment list the SVG export succeeds, and
its viewBox origin is `(min x, min y)` while its width and height are
exactly `max x - min x` and `max y - min y` over all endpoints. -/
theorem claim_C6 (lines : List Segment) (h : lines ≠ []) :
    ∃ doc : SvgDoc, export_as_svg lines = Except.ok doc
      ∧ doc.minx ∈ xsOf lines ∧ (∀ a ∈ xsOf lines, doc.minx ≤ a)
      ∧ doc.miny ∈ ysOf lines ∧ (∀ a ∈ ysOf lines, doc.miny ≤ a)
      ∧ (∃ xmax ∈ xsOf lines, (∀ a ∈ xsOf lines, a ≤ xmax)
          ∧ doc.viewW = xmax - doc.minx)
      ∧ (∃ ymax ∈ ysOf lines, (∀ a ∈ ysOf lines, a ≤ ymax)
          ∧ doc.viewH = ymax - doc.miny) := by
  obtain ⟨xmin, hxmin⟩ :=
    Option.ne_none_iff_exists'.mp (fun hh => xsOf_ne_nil h ((listMin_eq_none_iff _).mp hh))
  obtain ⟨xmax, hxmax⟩ :=
    Option.ne_none_iff_exists'.mp (fun hh => xsOf_ne_nil h ((listMax_eq_none_iff _).mp hh))
  obtain ⟨ymin, hymin⟩ :=
    Option.ne_none_iff_exists'.mp (fun hh => ysOf_ne_nil h ((listMin_eq_none_iff _).mp hh))
  obtain ⟨ymax, hymax⟩ :=
    Option.ne_none_iff_exists'.mp (fun hh => ysOf_ne_nil h ((listMax_eq_none_iff _).mp hh))
  obtain ⟨hxmin_mem, hxmin_le⟩ := listMin_spec _ _ hxmin
  obtain ⟨hxmax_mem, hxmax_le⟩ := listMax_spec _ _ hxmax
  obtain ⟨hymin_mem, hymin_le⟩ := listMin_spec _ _ hymin
  obtain ⟨hymax_mem, hymax_le⟩ := listMax_spec _ _ hymax
  have hsvg : export_as_svg lines = Except.ok
      { sizeW := ((xmax - xmin : ℤ) : ℚ), sizeH := ((ymax - ymin : ℤ) : ℚ),
        minx := xmin, miny := ymin,
        viewW := xmax - xmin, viewH := ymax - ymin,
        elements := lines.map (fun l =>
          (((l.x1 : ℚ), (l.y1 : ℚ)), ((l.x2 : ℚ), (l.y2 : ℚ)))) } := by
    unfold export_as_svg
    rw [hxmin, hxmax, hymin, hymax]
  exact ⟨_, hsvg, hxmin_mem, hxmin_le, hymin_mem, hymin_le,
    ⟨xmax, hxmax_mem, hxmax_le, rfl⟩, ⟨ymax, hymax_mem, hymax_le, rfl⟩⟩

/-- Witness for C6: two segments; the viewBox is
`(1, 0, 8, 7)` = `(min x, min y, 9-1, 7-0)`. -/
theorem claim_C6_witness :
    ([({ x1 := 3, y1 := 0, x2 := 9, y2 := 2 } : Segment),
      { x1 := 1, y1 := 7, x2 := 4, y2 := 5 }] ≠ ([] : List Segment))
    ∧ ∃ doc : SvgDoc,
        export_as_svg [{ x1 := 3, y1 := 0, x2 := 9, y2 := 2 },
                       { x1 := 1, y1 := 7, x2 := 4, y2 := 5 }] = Except.ok doc
        ∧ doc.minx ∈ xsOf [{ x1 := 3, y1 := 0, x2 := 9, y2 := 2 },
                           { x1 := 1, y1 := 7, x2 := 4, y2 := 5 }] := by
  have h := claim_C6 [{ x1 := 3, y1 := 0, x2 := 9, y2 := 2 },
                      { x1 := 1, y1 := 7, x2 := 4, y2 := 5 }] (by simp)
  obtain ⟨doc, hdoc, hmem, _⟩ := h
  exact ⟨by simp, doc, hdoc, hmem⟩

lemma cvLine_width (img : Raster) (s : Segment) : (cvLine img s).width = img.width := rfl

lemma cvLine_height (img : Raster) (s : Segment) : (cvLine img s).height = img.height := rfl

lemma foldl_cvLine_width (ls : List Segment) (img : Raster) :
    (ls.foldl cvLine img).width = img.width := by
  induction ls generalizing img with
  | nil => rfl
  | cons s rest ih => rw [List.foldl_cons, ih, cvLine_width]

lemma foldl_cvLine_height (ls : List Segment) (img : Raster) :
    (ls.foldl cvLine img).height = img.height := by
  induction ls generalizing img with
  | nil => rfl
  | cons s rest ih => rw [List.foldl_cons, ih, cvLine_height]

/-- Drawing a further segment never erases a 255 pixel. -/
lemma cvLine_preserves_255 (img : Raster) (s : Segment) (i j : ℕ)
    (h : img.pixel i j = 255) : (cvLine img s).pixel i j = 255 := by
  unfold cvLine
  dsimp only
  split <;> simp [h]

lemma foldl_cvLine_preserves_255 (ls : List Segment) (img : Raster) (i j : ℕ)
    (h : img.pixel i j = 255) : (ls.foldl cvLine img).pixel i j = 255 := by
  induction ls generalizing img with
  | nil => exact h
  | cons s rest ih =>
      rw [List.foldl_cons]
      exact ih (cvLine img s) (cvLine_preserves_255 img s i j h)

/-- After the drawing loop, every pixel on the stroke of a drawn segment
holds 255. -/
lemma foldl_cvLine_stroke (ls : List Segment) (img : Raster) (s : Segment)
    (hs : s ∈ ls) (i j : ℕ) (hd : distSqToSeg s (i : ℤ) (j : ℤ) ≤ 1) :
    (ls.foldl cvLine img).pixel i j = 255 := by
  induction ls generalizing img with
  | nil => exact absurd hs (List.not_mem_nil s)
  | cons a rest ih =>
      rw [List.foldl_cons]
      rcases List.mem_cons.mp hs with hsa | hsr
      · subst hsa
        apply foldl_cvLine_preserves_255
        unfold cvLine
        dsimp only
        rw [if_pos hd]
      · exact ih (cvLine img a) hsr

/-- Claim C7: the renderer returns a fresh raster with the source image's
dimensions; with `lines = None` or an empty segment list the raster is
all-zero (and the renderer is total — no error); every drawn segment
leaves a value-255 width-2 stroke. -/
theorem claim_C7 (lines : Option (List Segment)) (image : Raster) :
    (draw_floor_plan lines image).width = image.width
    ∧ (draw_floor_plan lines image).height = image.height
    ∧ (∀ i j : ℕ, (draw_floor_plan none image).pixel i j = 0)
    ∧ (∀ i j : ℕ, (draw_floor_plan (some []) image).pixel i j = 0)
    ∧ (∀ ls : List Segment, lines = some ls → ∀ s ∈ ls, ∀ i j : ℕ,
        distSqToSeg s (i : ℤ) (j : ℤ) ≤ 1 →
        (draw_floor_plan lines image).pixel i j = 255) := by
  refine ⟨?_, ?_, fun i j => rfl, fun i j => rfl, ?_⟩
  · cases lines with
    | none => rfl
    | some ls => exact foldl_cvLine_width ls (zerosLike image)
  · cases lines with
    | none => rfl
    | some ls => exact foldl_cvLine_height ls (zerosLike image)
  · rintro ls rfl s hs i j hd
    exact foldl_cvLine_stroke ls (zerosLike image) s hs i j hd

/-- Witness for C7: drawing the horizontal segment (0,0)–(3,0) on a canvas
sized like `testRaster` puts 255 at pixel (1,0), and the dimensions match. -/
theorem claim_C7_witness :
    (draw_floor_plan (some [{ x1 := 0, y1 := 0, x2 := 3, y2 := 0 }]) testRaster).width
        = testRaster.width
    ∧ (draw_floor_plan (some [{ x1 := 0, y1 := 0, x2 := 3, y2 := 0 }]) testRaster).pixel 1 0
        = 255 := by
  have h := claim_C7 (some [{ x1 := 0, y1 := 0, x2 := 3, y2 := 0 }]) testRaster
  refine ⟨h.1, h.2.2.2.2 _ rfl _ (List.mem_singleton.mpr rfl) 1 0 ?_⟩
  norm_num [distSqToSeg]

lemma heapRead_alloc (h : Heap) (r : Raster) (a : ℕ) (ha : a < h.length) :
    heapRead (h ++ [r]) a = heapRead h a := by
  unfold heapRead
  rw [List.getElem?_append_left ha]

lemma heapRead_write_ne (h : Heap) (a b : ℕ) (r : Raster) (hab : b ≠ a) :
    heapRead (heapWrite h b r) a = heapRead h a := by
  unfold heapRead heapWrite
  rw [List.getElem?_set_ne hab]

lemma drawLoop_read_ne (ls : List Segment) (h : Heap) (outA a : ℕ)
    (hne : outA ≠ a) : heapRead (drawLoop ls h outA) a = heapRead h a := by
  induction ls generalizing h with
  | nil => rfl
  | cons s rest ih =>
      show heapRead (drawLoop rest (heapWrite h outA (cvLine (heapRead h outA) s)) outA) a
          = heapRead h a
      rw [ih, heapRead_write_ne h a outA _ hne]

lemma heapWrite_length (h : Heap) (b : ℕ) (r : Raster) :
    (heapWrite h b r).length = h.length := by
  unfold heapWrite
  exact List.length_set h b r

lemma heapRead_write_self (h : Heap) (b : ℕ) (r : Raster) (hb : b < h.length) :
    heapRead (heapWrite h b r) b = r := by
  unfold heapRead heapWrite
  rw [List.getElem?_set_eq_of_lt r hb]
  rfl

lemma heapRead_alloc_new (h : Heap) (r : Raster) :
    heapRead (h ++ [r]) h.length = r := by
  unfold heapRead
  rw [List.getElem?_append_right (le_refl h.length)]
  simp

lemma heapWrite_heapWrite (h : Heap) (b : ℕ) (r1 r2 : Raster) :
    heapWrite (heapWrite h b r1) b r2 = heapWrite h b r2 := by
  unfold heapWrite
  rw [List.set_set]

lemma heapRead_write_alloc_self (h : Heap) (z r : Raster) :
    heapRead (heapWrite (h ++ [z]) h.length r) h.length = r := by
  apply heapRead_write_self
  simp

lemma heapRead_write_alloc_ne (h : Heap) (z r : Raster) (a : ℕ) (ha : a < h.length) :
    heapRead (heapWrite (h ++ [z]) h.length r) a = heapRead h a := by
  rw [heapRead_write_ne _ _ _ _ (Nat.ne_of_gt ha), heapRead_alloc _ _ _ ha]

/-- The three masked assignments into the fresh zero array compute
`classifyPixel` at every pixel. -/
lemma maskAssign_chain_pixel (img : Raster) (ot ft : ℚ) (i j : ℕ) :
    (maskAssign img (fun v => decide (ft * 255 ≤ (v : ℚ) ∧ (v : ℚ) ≤ ot * 255)) 127
      (maskAssign img (fun v => decide ((v : ℚ) < ft * 255)) 0
        (maskAssign img (fun v => decide (ot * 255 < (v : ℚ))) 255
          (zerosLike img)))).pixel i j
      = classifyPixel ot ft (img.pixel i j) := by
  simp only [maskAssign, zerosLike, classifyPixel, decide_eq_true_eq]

/-- The heap program `preprocessProg` computes, at its fresh output
address, exactly the functional `preprocess_image` of the input image:
the imperative and the functional embeddings agree. -/
lemma preprocessProg_out_pixel (h : Heap) (imgA : ℕ) (ot ft : ℚ)
    (negate : Bool) (i j : ℕ) (ha : imgA < h.length) :
    (heapRead (preprocessProg h imgA ot ft negate).1
        (preprocessProg h imgA ot ft negate).2).pixel i j
      = (preprocess_image (heapRead h imgA) ot ft negate).pixel i j := by
  unfold preprocessProg heapAlloc
  dsimp only
  cases negate with
  | false =>
      simp only [Bool.false_eq_true, if_false, heapWrite_heapWrite,
        heapRead_write_alloc_self, heapRead_write_alloc_ne _ _ _ _ ha,
        heapRead_alloc_new, heapRead_alloc _ _ _ ha]
      rw [maskAssign_chain_pixel]
      rfl
  | true =>
      simp only [if_true, heapWrite_heapWrite,
        heapRead_write_alloc_self, heapRead_write_alloc_ne _ _ _ _ ha,
        heapRead_alloc_new, heapRead_alloc _ _ _ ha]
      show (invertRaster _).pixel i j = _
      unfold invertRaster preprocess_image
      dsimp only
      rw [maskAssign_chain_pixel]
      rfl

/-- The drawing loop leaves, at the canvas address, the fold of `cvLine`
over the segments. -/
lemma drawLoop_out (ls : List Segment) (H : Heap) (outA : ℕ)
    (hL : outA < H.length) :
    heapRead (drawLoop ls H outA) outA = ls.foldl cvLine (heapRead H outA) := by
  induction ls generalizing H with
  | nil => rfl
  | cons s rest ih =>
      show heapRead (drawLoop rest
          (heapWrite H outA (cvLine (heapRead H outA) s)) outA) outA = _
      rw [ih _ (by rw [heapWrite_length]; exact hL),
        heapRead_write_self _ _ _ hL, List.foldl_cons]

/-- The heap program `drawProg` computes, at its fresh output address,
exactly the functional `draw_floor_plan` of the input image. -/
lemma drawProg_out (h : Heap) (lines : Option (List Segment)) (imgA : ℕ) :
    heapRead (drawProg h lines imgA).1 (drawProg h lines imgA).2
      = draw_floor_plan lines (heapRead h imgA) := by
  unfold drawProg heapAlloc draw_floor_plan
  dsimp only
  cases lines with
  | none => exact heapRead_alloc_new h _
  | some ls =>
      dsimp only
      rw [drawLoop_out ls _ h.length (by simp), heapRead_alloc_new h _]

/-- Claim C9: neither the classifier nor the renderer modifies the input
image — after either heap program runs, the array at the image's address
is unchanged, and each program's output address is a fresh one, distinct
from the image's. -/
theorem claim_C9 (h : Heap) (imgA : ℕ) (ot ft : ℚ) (negate : Bool)
    (lines : Option (List Segment)) (ha : imgA < h.length) :
    heapRead (preprocessProg h imgA ot ft negate).1 imgA = heapRead h imgA
    ∧ (preprocessProg h imgA ot ft negate).2 ≠ imgA
    ∧ heapRead (drawProg h lines imgA).1 imgA = heapRead h imgA
    ∧ (drawProg h lines imgA).2 ≠ imgA := by
  have hne : h.length ≠ imgA := Nat.ne_of_gt ha
  refine ⟨?_, ?_, ?_, ?_⟩
  · show heapRead (preprocessProg h imgA ot ft negate).1 imgA = heapRead h imgA
    unfold preprocessProg heapAlloc
    dsimp only
    cases negate with
    | false =>
        rw [if_neg (by simp)]
        rw [heapRead_write_ne _ _ _ _ hne, heapRead_write_ne _ _ _ _ hne,
          heapRead_write_ne _ _ _ _ hne, heapRead_alloc h _ imgA ha]
    | true =>
        rw [if_pos rfl]
        rw [heapRead_write_ne _ _ _ _ hne, heapRead_write_ne _ _ _ _ hne,
          heapRead_write_ne _ _ _ _ hne, heapRead_write_ne _ _ _ _ hne,
          heapRead_alloc h _ imgA ha]
  · show h.length ≠ imgA
    exact hne
  · show heapRead (drawProg h lines imgA).1 imgA = heapRead h imgA
    unfold drawProg heapAlloc
    dsimp only
    cases lines with
    | none => exact heapRead_alloc h _ imgA ha
    | some ls =>
        dsimp only
        rw [drawLoop_read_ne ls _ h.length imgA hne, heapRead_alloc h _ imgA ha]
  · show (drawProg h lines imgA).2 ≠ imgA
    unfold drawProg heapAlloc
    cases lines with
    | none => exact hne
    | some ls => exact hne

/-- Witness for C9: a one-array heap holding `testRaster`; both programs
leave address 0 untouched and output to address 1. -/
theorem claim_C9_witness :
    (0 < ([testRaster] : Heap).length)
    ∧ (heapRead (preprocessProg [testRaster] 0 (13/20) (1/4) true).1 0
          = heapRead [testRaster] 0
      ∧ (preprocessProg [testRaster] 0 (13/20) (1/4) true).2 ≠ 0
      ∧ heapRead (drawProg [testRaster] (some [{ x1 := 0, y1 := 0, x2 := 3, y2 := 0 }]) 0).1 0
          = heapRead [testRaster] 0
      ∧ (drawProg [testRaster] (some [{ x1 := 0, y1 := 0, x2 := 3, y2 := 0 }]) 0).2 ≠ 0) :=
  ⟨by decide,
    claim_C9 [testRaster] 0 (13/20) (1/4) true
      (some [{ x1 := 0, y1 := 0, x2 := 3, y2 := 0 }]) (by decide)⟩

end PostProcSlam
